import Mathlib

set_option maxRecDepth 16384

/-!
Verification of the fits-hilltop decode-and-normalize pipeline.

The Go program ingests Hilltop-dialect XML files of environmental
time-series measurements and assembles canonical observation records.
This file gives a shallow embedding of the core pipeline
(`HilltopMeasurement.Values`, `Hilltop.Observations`,
`DecodeHilltopFile`) together with models of the Go standard-library
routines the pipeline calls (`strings.TrimLeft`/`strings.Split`,
`time.Parse` with the fixed layout `02-Jan-06 15:04:05`, and
`strconv.ParseFloat`), and proves or refutes the specification claims
about it.

Modelling conventions:
- machine integers and instants are `Nat`/`Int` (Unix seconds);
- a parsed 64-bit float is represented exactly (`GoFloat`: a rational,
  an infinity, or NaN); rounding of the decimal value to binary64 is
  not modelled, since no property here depends on the rounded value,
  only on parse acceptance (including the overflow range error);
- Go's multiple return `(xs, err)` is modelled as `List _ × Option _`
  so that what accompanies a non-nil error is visible;
- the host process's local timezone is threaded as an explicit
  `localOffset : Int` parameter so that (in)dependence on it is a
  statable property.
-/

/-! ## Text utilities (Go `strings.TrimLeft`, `strings.Split`) -/

/-- Go `strings.Split(s, " ")` on a single-space separator: splits at
every space, keeping empty pieces; the empty string yields `[[]]`. -/
def splitChars : List Char → List (List Char)
  | [] => [[]]
  | c :: rest =>
    if c = ' ' then [] :: splitChars rest
    else
      match splitChars rest with
      | t :: ts => (c :: t) :: ts
      | [] => [[c]]

/-- Go `strings.TrimLeft(v, " ")`: removes leading space characters
(U+0020) only — not tabs or other whitespace. -/
def trimLeftSpaces (s : String) : String :=
  ⟨s.data.dropWhile (fun c => c == ' ')⟩

/-- The tokenization performed by `HilltopMeasurement.Values`:
`strings.Split(strings.TrimLeft(v, " "), " ")`. -/
def goTokens (v : String) : List String :=
  (splitChars (trimLeftSpaces v).data).map String.mk

/-- ASCII lower-casing of one character, as used by the Go `time`
package when matching month names case-insensitively. -/
def lowerAscii (c : Char) : Char :=
  if 'A' ≤ c ∧ c ≤ 'Z' then Char.ofNat (c.toNat + 32) else c

/-! ## Model of `strconv.ParseFloat(s, 64)`

Acceptance follows the Go syntax for this program's era (decimal
mantissa with optional fraction and `e`-exponent, and the special
spellings of infinities and NaN); a syntactically valid number whose
magnitude overflows float64 makes `ParseFloat` return a non-nil range
error, so it is rejected here as well.  Underflow to zero returns a
nil error in Go and is therefore accepted. -/

/-- A 64-bit float value, represented exactly: a rational for finite
values (rounding to binary64 is not modelled), or an infinity or NaN. -/
inductive GoFloat where
  | finite (q : ℚ)
  | inf (neg : Bool)
  | nan
deriving DecidableEq

/-- The special spellings `strconv.ParseFloat` recognizes, applied to
the ASCII-lowercased input: signed or unsigned `inf`/`infinity`, and
`nan` (without a sign). -/
def goFloatSpecial : List Char → Option GoFloat
  | ['+', 'i', 'n', 'f'] => some (GoFloat.inf false)
  | ['+', 'i', 'n', 'f', 'i', 'n', 'i', 't', 'y'] => some (GoFloat.inf false)
  | ['-', 'i', 'n', 'f'] => some (GoFloat.inf true)
  | ['-', 'i', 'n', 'f', 'i', 'n', 'i', 't', 'y'] => some (GoFloat.inf true)
  | ['i', 'n', 'f'] => some (GoFloat.inf false)
  | ['i', 'n', 'f', 'i', 'n', 'i', 't', 'y'] => some (GoFloat.inf false)
  | ['n', 'a', 'n'] => some GoFloat.nan
  | _ => none

/-- Decimal digit string to a natural number. -/
def digitsToNat (l : List Char) : Nat :=
  l.foldl (fun acc c => acc * 10 + (c.toNat - 48)) 0

/-- Smallest magnitude that makes float64 conversion overflow: values
at or above `2^1024 - 2^970` round to infinity, which Go reports as a
range error (a non-nil error from `ParseFloat`). -/
def float64OverflowBound : ℚ :=
  mkRat ((2 ^ 1024 - 2 ^ 970 : Nat) : Int) 1

/-- Assemble the exact value of a decimal float from its sign, integer
digits, fraction digits and optional exponent; reject it when the
magnitude overflows float64 (Go's range error).  The exact value
`mant * 10 ^ e` is built with `mkRat` over integer arithmetic. -/
def mkGoFloat (neg : Bool) (intD fracD : List Char)
    (exp : Option (Bool × Nat)) : Option GoFloat :=
  let mant : Nat := digitsToNat (intD ++ fracD)
  let e : Int :=
    (match exp with
     | none => 0
     | some (eneg, en) => if eneg then -(en : Int) else (en : Int))
      - (fracD.length : Int)
  let mag : ℚ :=
    if 0 ≤ e then mkRat ((mant : Int) * (10 : Int) ^ e.toNat) 1
    else mkRat (mant : Int) ((10 : Nat) ^ (-e).toNat)
  let sNum : Int := if neg then -(mant : Int) else (mant : Int)
  let q : ℚ :=
    if 0 ≤ e then mkRat (sNum * (10 : Int) ^ e.toNat) 1
    else mkRat sNum ((10 : Nat) ^ (-e).toNat)
  if float64OverflowBound ≤ mag then none
  else some (GoFloat.finite q)

/-- The decimal branch of `strconv.ParseFloat`: optional sign, digits
with at most one dot (at least one digit overall), optional
`e`/`E`-exponent with optional sign and at least one digit, and the
whole string must be consumed. -/
def parseDecimalFloat (s : List Char) : Option GoFloat :=
  let signSplit : Bool × List Char :=
    match s with
    | '+' :: r => (false, r)
    | '-' :: r => (true, r)
    | r => (false, r)
  let neg := signSplit.fst
  let intSplit := signSplit.snd.span Char.isDigit
  let intD := intSplit.fst
  let fracSplit : List Char × List Char :=
    match intSplit.snd with
    | '.' :: r => r.span Char.isDigit
    | r => ([], r)
  let fracD := fracSplit.fst
  if intD = [] ∧ fracD = [] then none
  else
    match fracSplit.snd with
    | [] => mkGoFloat neg intD fracD none
    | 'e' :: r =>
      let esign : Bool × List Char :=
        match r with
        | '+' :: rr => (false, rr)
        | '-' :: rr => (true, rr)
        | rr => (false, rr)
      let eSplit := esign.snd.span Char.isDigit
      if eSplit.fst = [] then none
      else if eSplit.snd = [] then
        mkGoFloat neg intD fracD (some (esign.fst, digitsToNat eSplit.fst))
      else none
    | 'E' :: r =>
      let esign : Bool × List Char :=
        match r with
        | '+' :: rr => (false, rr)
        | '-' :: rr => (true, rr)
        | rr => (false, rr)
      let eSplit := esign.snd.span Char.isDigit
      if eSplit.fst = [] then none
      else if eSplit.snd = [] then
        mkGoFloat neg intD fracD (some (esign.fst, digitsToNat eSplit.fst))
      else none
    | _ => none

/-- Model of Go `strconv.ParseFloat(s, 64)`: `none` exactly when the
Go call returns a non-nil error (syntax error or float64 overflow
range error). -/
def goParseFloat (s : String) : Option GoFloat :=
  match goFloatSpecial (s.data.map lowerAscii) with
  | some f => some f
  | none => parseDecimalFloat s.data

/-! ## Model of `time.Parse("02-Jan-06 15:04:05", s)`

The layout has no time-zone element, so Go interprets the civil fields
as UTC and returns a UTC-located `time.Time`; the process's local
timezone (`time.Local`) is never consulted (`time.ParseInLocation`
would be needed for that).  The `localOffset` parameter below
represents the ambient local timezone and is accordingly unused by the
parsing itself; it exists so that independence from the host timezone
is a statable property of the pipeline. -/

/-- A civil date-time as parsed from the fixed layout. -/
structure Civil where
  year : Nat
  month : Nat
  day : Nat
  hour : Nat
  minute : Nat
  second : Nat
deriving DecidableEq

/-- The presentation location carried by a Go `time.Time`. -/
inductive GoLocation where
  | utc
  | hostLocal
deriving DecidableEq, BEq

/-- A Go `time.Time`: an absolute instant (Unix seconds) plus a
presentation location. -/
structure GoTime where
  secs : Int
  loc : GoLocation
deriving DecidableEq

/-- Go `t.UTC()`: changes only the presentation location, never the
instant. -/
def GoTime.UTC (t : GoTime) : GoTime :=
  { t with loc := GoLocation.utc }

/-- Decimal digit value of a character. -/
def digitVal (c : Char) : Option Nat :=
  if c.isDigit then some (c.toNat - 48) else none

/-- Go `getnum` with fixed two-digit width (layouts `02`, `04`, `05`,
`06`): exactly two digits are required. -/
def getnum2 : List Char → Option (Nat × List Char)
  | a :: b :: r => do
    let x ← digitVal a
    let y ← digitVal b
    pure (10 * x + y, r)
  | _ => none

/-- Go `getnum` in non-fixed mode (layout `15`, the hour): one digit,
or two when the second character is also a digit. -/
def getnum12 : List Char → Option (Nat × List Char)
  | a :: b :: r =>
    match digitVal a with
    | none => none
    | some x =>
      match digitVal b with
      | some y => some (10 * x + y, r)
      | none => some (x, b :: r)
  | [a] => (digitVal a).map (fun x => (x, []))
  | [] => none

/-- Three-letter month abbreviation, matched case-insensitively as the
Go `time` package does. -/
def monthNum (a b c : Char) : Option Nat :=
  match lowerAscii a, lowerAscii b, lowerAscii c with
  | 'j', 'a', 'n' => some 1
  | 'f', 'e', 'b' => some 2
  | 'm', 'a', 'r' => some 3
  | 'a', 'p', 'r' => some 4
  | 'm', 'a', 'y' => some 5
  | 'j', 'u', 'n' => some 6
  | 'j', 'u', 'l' => some 7
  | 'a', 'u', 'g' => some 8
  | 's', 'e', 'p' => some 9
  | 'o', 'c', 't' => some 10
  | 'n', 'o', 'v' => some 11
  | 'd', 'e', 'c' => some 12
  | _, _, _ => none

/-- Whether a Gregorian year is a leap year. -/
def isLeapYear (y : Nat) : Bool :=
  y % 4 == 0 && (y % 100 != 0 || y % 400 == 0)

/-- Number of days in a month. -/
def daysInMonth (y : Nat) : Nat → Nat
  | 2 => if isLeapYear y then 29 else 28
  | 4 => 30
  | 6 => 30
  | 9 => 30
  | 11 => 30
  | _ => 31

/-- Parse the two-digit-day layout `02-Jan-06 15:04:05` against a
value string, mirroring Go: fixed-width numeric fields, literal
separators, two-digit year with the 69 pivot (`69..99 → 19xx`,
`00..68 → 20xx`), range checks on day, hour, minute and second, and no
text may remain. -/
def goParseCivil (s : List Char) : Option Civil := do
  let (dd, r1) ← getnum2 s
  match r1 with
  | '-' :: ma :: mb :: mc :: '-' :: r2 => do
    let mon ← monthNum ma mb mc
    let (yy, r3) ← getnum2 r2
    match r3 with
    | ' ' :: r4 => do
      let (hh, r5) ← getnum12 r4
      match r5 with
      | ':' :: r6 => do
        let (mi, r7) ← getnum2 r6
        match r7 with
        | ':' :: r8 => do
          let (ss, r9) ← getnum2 r8
          if r9 = [] then
            let year := if yy ≥ 69 then 1900 + yy else 2000 + yy
            if 1 ≤ dd ∧ dd ≤ daysInMonth year mon ∧ hh ≤ 23 ∧ mi ≤ 59 ∧ ss ≤ 59 then
              some { year := year, month := mon, day := dd,
                     hour := hh, minute := mi, second := ss }
            else none
          else none
        | _ => none
      | _ => none
    | _ => none
  | _ => none

/-- Days since the Unix epoch of a civil date (proleptic Gregorian). -/
def daysFromCivil (y m d : Nat) : Int :=
  let y' := if m ≤ 2 then y - 1 else y
  let era := y' / 400
  let yoe := y' % 400
  let mp := if 2 < m then m - 3 else m + 9
  let doy := (153 * mp + 2) / 5 + d - 1
  let doe := yoe * 365 + yoe / 4 - yoe / 100 + doy
  ((era * 146097 + doe : Nat) : Int) - 719468

/-- Unix seconds of a civil date-time read as UTC. -/
def civilToUTCSecs (c : Civil) : Int :=
  daysFromCivil c.year c.month c.day * 86400
    + (c.hour : Int) * 3600 + (c.minute : Int) * 60 + (c.second : Int)

/-- Model of `time.Parse("02-Jan-06 15:04:05", s)` running in a
process whose local timezone has UTC offset `localOffset`.  The layout
contains no time-zone element, so the civil fields are interpreted as
UTC and the result is UTC-located; `localOffset` is never consulted. -/
def goParseDateTime (localOffset : Int) (s : String) : Option GoTime :=
  (goParseCivil s.data).map fun c =>
    { secs := civilToUTCSecs c, loc := GoLocation.utc }

/-! ## Data model of the Hilltop document (decoded XML tree) -/

/-- One timestamped reading (`HilltopValue` in the source). -/
structure HilltopValue where
  Timestamp : GoTime
  Reading : GoFloat
deriving DecidableEq

/-- The `DataSource` block of a measurement, as decoded from XML. -/
structure HilltopDataSource where
  Name : String
  NumItems : String
  Interpolation : String
deriving DecidableEq

/-- The `Data` block of a measurement: the date-format attribute and
the ordered raw `<V>` text lines. -/
structure HilltopData where
  DateFormat : String
  Value : List String
deriving DecidableEq

/-- One `<Measurement>` element (`HilltopMeasurement` in the source). -/
structure HilltopMeasurement where
  SiteName : String
  DataSource : HilltopDataSource
  Data : HilltopData
deriving DecidableEq

/-- A decoded Hilltop document (`Hilltop` in the source). -/
structure Hilltop where
  Agency : String
  Measurement : List HilltopMeasurement
deriving DecidableEq

/-- The built-in unit mapping table (`HilltopUnits` in the source):
source parameter name to canonical short type code; lookup is exact
and case-sensitive, absent keys yield `none`. -/
def HilltopUnits : String → Option String
  | "Air Temperature" => some "t"
  | "Wind Chill" => some "wc"
  | "Relative Humidity" => some "rh"
  | "Rainfall" => some "rn"
  | "Barometric Pressure" => some "ap"
  | "Wind Direction" => some "wdir"
  | "Max Gust" => some "wg"
  | "Average Wind" => some "wm"
  | _ => none

/-- The caller-supplied site mapping (`HilltopSites` in the source): a
map from source site name to canonical site id, with unique keys. -/
structure HilltopSites where
  Sites : List (String × String)
deriving DecidableEq

/-- Exact, case-sensitive map lookup on the site table. -/
def HilltopSites.lookup (s : HilltopSites) (k : String) : Option String :=
  s.Sites.lookup k

/-- The errors the value extractor can produce: a `time.Parse` error
on the joined date-time token, or a `strconv.ParseFloat` error
(syntax or float64 range) on the numeric token.  Both are `ParseError`
in the specification's vocabulary. -/
inductive GoErr where
  | timeParse (value : String)
  | floatParse (s : String)
deriving DecidableEq

instance {ε α : Type} [DecidableEq ε] [DecidableEq α] :
    DecidableEq (Except ε α) := fun a b =>
  match a, b with
  | Except.error e1, Except.error e2 =>
    if h : e1 = e2 then isTrue (by rw [h])
    else isFalse (fun hc => by cases hc; exact h rfl)
  | Except.error _, Except.ok _ => isFalse (fun hc => by cases hc)
  | Except.ok _, Except.error _ => isFalse (fun hc => by cases hc)
  | Except.ok a1, Except.ok a2 =>
    if h : a1 = a2 then isTrue (by rw [h])
    else isFalse (fun hc => by cases hc; exact h rfl)

/-- A canonical observation record (`msg.Observation` from the
external GeoNet/msg package; the fields this program sets). -/
structure Observation where
  NetworkID : String
  SiteID : String
  TypeID : String
  MethodID : String
  DateTime : GoTime
  Value : GoFloat
  Error : GoFloat
deriving DecidableEq

/-! ## The Value Extractor (`HilltopMeasurement.Values`) -/

/-- The `fmt.Sprintf("%s %s", parts[0], parts[1])` date-time token. -/
def joinedDateToken (parts : List String) : String :=
  parts.getD 0 "" ++ " " ++ parts.getD 1 ""

/-- One iteration of the loop body of `HilltopMeasurement.Values` on a
raw value line: tokenize (`TrimLeft` of spaces, then `Split` on single
spaces); with at most two tokens the line is skipped (`ok none`);
otherwise the first two tokens joined by a space must `time.Parse`
(else a fatal error), the parsed time is re-located to UTC when the
measurement's date format is the string `"UTC"` (a no-op on the
instant), and the third token must `strconv.ParseFloat` (else a fatal
error). -/
def parseLine (localOffset : Int) (dateFormat : String) (v : String) :
    Except GoErr (Option HilltopValue) :=
  let parts := goTokens v
  if parts.length > 2 then
    let dt := joinedDateToken parts
    match goParseDateTime localOffset dt with
    | none => Except.error (GoErr.timeParse dt)
    | some t0 =>
      let t := if dateFormat == "UTC" then t0.UTC else t0
      let numTok := parts.getD 2 ""
      match goParseFloat numTok with
      | none => Except.error (GoErr.floatParse numTok)
      | some r => Except.ok (some { Timestamp := t, Reading := r })
  else Except.ok none

/-- The loop of `HilltopMeasurement.Values`: readings accumulate in
line order; the first fatal line aborts the loop, returning the
readings gathered so far together with the error. -/
def valuesLoop (localOffset : Int) (dateFormat : String) :
    List String → List HilltopValue × Option GoErr
  | [] => ([], none)
  | v :: vs =>
    match parseLine localOffset dateFormat v with
    | Except.error e => ([], some e)
    | Except.ok none => valuesLoop localOffset dateFormat vs
    | Except.ok (some hv) =>
      let r := valuesLoop localOffset dateFormat vs
      (hv :: r.fst, r.snd)

/-- The Value Extractor (`func (m *HilltopMeasurement) Values()`),
running in a process whose local timezone offset is `localOffset`;
returns the Go pair `(values, err)`. -/
def HilltopMeasurement.Values (localOffset : Int) (m : HilltopMeasurement) :
    List HilltopValue × Option GoErr :=
  valuesLoop localOffset m.Data.DateFormat m.Data.Value

/-! ## The Observation Assembler (`Hilltop.Observations`) -/

/-- Construction of one canonical observation from a reading and the
resolved identifiers; the error estimate is the literal `0.0`. -/
def obsOfValue (network method s t : String) (v : HilltopValue) : Observation :=
  { NetworkID := network, SiteID := s, TypeID := t, MethodID := method,
    DateTime := v.Timestamp, Value := v.Reading,
    Error := GoFloat.finite 0 }

/-- The loop of `Hilltop.Observations`: a measurement whose site name
is absent from the site mapping, or whose data-source name is absent
from `HilltopUnits`, is skipped (logged only); otherwise its values
are extracted, a non-nil extraction error aborts the whole loop
(returning the observations assembled from earlier measurements with
the error), and on success one observation per reading is appended. -/
def obsLoop (localOffset : Int) (sites : HilltopSites) (network method : String) :
    List HilltopMeasurement → List Observation × Option GoErr
  | [] => ([], none)
  | m :: ms =>
    match sites.lookup m.SiteName with
    | none => obsLoop localOffset sites network method ms
    | some s =>
      match HilltopUnits m.DataSource.Name with
      | none => obsLoop localOffset sites network method ms
      | some t =>
        match m.Values localOffset with
        | (_, some e) => ([], some e)
        | (values, none) =>
          let r := obsLoop localOffset sites network method ms
          (values.map (obsOfValue network method s t) ++ r.fst, r.snd)

/-- The Observation Assembler
(`func (h *Hilltop) Observations(sites, network, method)`); returns
the Go pair `(msgs, err)`. -/
def Hilltop.Observations (localOffset : Int) (h : Hilltop)
    (sites : HilltopSites) (network method : String) :
    List Observation × Option GoErr :=
  obsLoop localOffset sites network method h.Measurement

/-! ## The Document Decoder (`DecodeHilltopFile`) -/

/-- Model of `DecodeHilltopFile`.  The outcome of `os.Open` is an
abstract `Option β` (`none` when the file cannot be opened), and the
XML decoding step (`encoding/xml` with the charset hook) is an
abstract function returning either a decode/read error or a document.
The source returns the Go pair `(*Hilltop, error)`; note that on an
open failure it returns `(nil, nil)`. -/
def DecodeHilltopFile {β : Type} (openResult : Option β)
    (xmlDecode : β → Except String Hilltop) : Option Hilltop × Option String :=
  match openResult with
  | none => (none, none)
  | some stream =>
    match xmlDecode stream with
    | Except.error e => (none, some e)
    | Except.ok h => (some h, none)

/-! ## Concrete fixtures (documents, mappings, observations) -/

/-- A measurement that decodes and extracts cleanly (the README's
example): known site, known data source, UTC date format, one
well-formed value line with leading spaces. -/
def mGoodA : HilltopMeasurement :=
  { SiteName := "Place",
    DataSource := { Name := "Air Temperature", NumItems := "1",
                    Interpolation := "Instantaneous" },
    Data := { DateFormat := "UTC",
              Value := [" 27-May-15 21:30:00 2.300000"] } }

/-- A measurement whose single value line has three tokens but an
unparseable numeric token. -/
def mBadB : HilltopMeasurement :=
  { SiteName := "Bad",
    DataSource := { Name := "Rainfall", NumItems := "1", Interpolation := "" },
    Data := { DateFormat := "UTC",
              Value := ["27-May-15 21:30:00 not-a-number"] } }

/-- A measurement whose single value line yields fewer than three
tokens. -/
def mShort : HilltopMeasurement :=
  { SiteName := "Place",
    DataSource := { Name := "Air Temperature", NumItems := "1",
                    Interpolation := "" },
    Data := { DateFormat := "UTC", Value := ["x y"] } }

/-- A measurement with a non-UTC date format and one well-formed value
line. -/
def mLocalTZ : HilltopMeasurement :=
  { SiteName := "Place",
    DataSource := { Name := "Air Temperature", NumItems := "1",
                    Interpolation := "" },
    Data := { DateFormat := "NZST",
              Value := ["01-Jan-15 00:00:00 1.5"] } }

/-- A measurement whose site name has no mapping entry and whose value
lines would be fatal if they were ever extracted. -/
def mUnknownSite : HilltopMeasurement :=
  { SiteName := "Nowhere",
    DataSource := { Name := "Air Temperature", NumItems := "1",
                    Interpolation := "" },
    Data := { DateFormat := "UTC", Value := ["not a date-time line"] } }

/-- A measurement identical to `mGoodA`'s data except that the value
line's leading whitespace is a tab instead of a space. -/
def mTab : HilltopMeasurement :=
  { SiteName := "Place",
    DataSource := { Name := "Air Temperature", NumItems := "1",
                    Interpolation := "" },
    Data := { DateFormat := "UTC",
              Value := ["\t27-May-15 21:30:00 2.300000"] } }

/-- First measurement of the two-by-two document: two readable lines. -/
def mG1 : HilltopMeasurement :=
  { SiteName := "Place",
    DataSource := { Name := "Air Temperature", NumItems := "2",
                    Interpolation := "" },
    Data := { DateFormat := "UTC",
              Value := ["01-Jan-15 00:00:00 1.5", "01-Jan-15 01:00:00 2.5"] } }

/-- Second measurement of the two-by-two document: two readable lines,
different site and parameter. -/
def mG2 : HilltopMeasurement :=
  { SiteName := "Bad",
    DataSource := { Name := "Rainfall", NumItems := "2",
                    Interpolation := "" },
    Data := { DateFormat := "UTC",
              Value := ["02-Jan-15 00:00:00 3.5", "02-Jan-15 00:00:01 -4.5"] } }

/-- A measurement whose single value line starts with a tab followed
by a space: after stripping all leading whitespace it would have two
tokens, but the code strips only spaces and sees three tokens. -/
def mWsLine : HilltopMeasurement :=
  { SiteName := "Place",
    DataSource := { Name := "Air Temperature", NumItems := "1",
                    Interpolation := "" },
    Data := { DateFormat := "UTC", Value := ["\t a b"] } }

/-- A site mapping covering the fixture sites. -/
def sitesEx : HilltopSites :=
  { Sites := [("Place", "PLACE1"), ("Bad", "PLACE2")] }

/-- Document with a clean measurement followed by one whose value line
is fatal. -/
def hC3 : Hilltop := { Agency := "agency", Measurement := [mGoodA, mBadB] }

/-- Document with two clean measurements of two readable lines each. -/
def hC6 : Hilltop := { Agency := "agency", Measurement := [mG1, mG2] }

/-- The observation assembled from `mGoodA`'s single value line. -/
def obsA : Observation :=
  { NetworkID := "NT", SiteID := "PLACE1", TypeID := "t", MethodID := "M",
    DateTime := { secs := 1432762200, loc := GoLocation.utc },
    Value := GoFloat.finite (mkRat 23 10), Error := GoFloat.finite 0 }

/-- Spec-side tokenization for comparison with the code's: strip ALL
leading whitespace (any whitespace characters, the specification's
reading), then split on single spaces. -/
def specTokensWhitespace (v : String) : List String :=
  (splitChars (v.data.dropWhile Char.isWhitespace)).map String.mk

/-! ## Helper lemmas -/

theorem GoTime.UTC_eq_self {t : GoTime} (h : t.loc = GoLocation.utc) :
    t.UTC = t := by
  cases t with
  | mk s l => cases h; rfl

theorem goParseDateTime_loc {off : Int} {s : String} {t : GoTime}
    (h : goParseDateTime off s = some t) : t.loc = GoLocation.utc := by
  unfold goParseDateTime at h
  cases hc : goParseCivil s.data with
  | none => rw [hc] at h; simp [Option.map] at h
  | some c =>
    rw [hc] at h
    simp only [Option.map, Option.some.injEq] at h
    rw [← h]

theorem parseLine_off_irrel (off1 off2 : Int) (df v : String) :
    parseLine off1 df v = parseLine off2 df v := rfl

theorem parseLine_df_irrel (off : Int) (d1 d2 v : String) :
    parseLine off d1 v = parseLine off d2 v := by
  unfold parseLine
  cases h : goParseDateTime off (joinedDateToken (goTokens v)) with
  | none => simp [h]
  | some t0 =>
    have hloc : t0.UTC = t0 := GoTime.UTC_eq_self (goParseDateTime_loc h)
    simp [h, hloc]

theorem parseLine_timestamp_utc {off : Int} {df v : String} {hv : HilltopValue}
    (h : parseLine off df v = Except.ok (some hv)) :
    hv.Timestamp.loc = GoLocation.utc := by
  simp only [parseLine] at h
  split at h
  · split at h
    · cases h
    · rename_i t0 hdt
      split at h
      · cases h
      · rename_i r hf
        have hl0 : t0.loc = GoLocation.utc := goParseDateTime_loc hdt
        simp only [Except.ok.injEq, Option.some.injEq] at h
        subst h
        by_cases hdf : (df == "UTC") = true
        · simp [hdf, GoTime.UTC]
        · simp only [Bool.not_eq_true] at hdf
          simp [hdf, hl0]
  · cases h

theorem valuesLoop_off_irrel (off1 off2 : Int) (df : String) (ls : List String) :
    valuesLoop off1 df ls = valuesLoop off2 df ls := by
  induction ls with
  | nil => rfl
  | cons v vs ih =>
    simp only [valuesLoop, parseLine_off_irrel off1 off2 df v, ih]

theorem valuesLoop_df_irrel (off : Int) (d1 d2 : String) (ls : List String) :
    valuesLoop off d1 ls = valuesLoop off d2 ls := by
  induction ls with
  | nil => rfl
  | cons v vs ih =>
    simp only [valuesLoop, parseLine_df_irrel off d1 d2 v, ih]

theorem valuesLoop_all_utc (off : Int) (df : String) (ls : List String) :
    ((valuesLoop off df ls).fst.all
      (fun v => v.Timestamp.loc == GoLocation.utc)) = true := by
  induction ls with
  | nil => rfl
  | cons v vs ih =>
    simp only [valuesLoop]
    cases h : parseLine off df v with
    | error e => rfl
    | ok o =>
      cases o with
      | none => exact ih
      | some hv =>
        simp only [List.all_cons, ih, Bool.and_true]
        have hl := parseLine_timestamp_utc h
        rw [hl]
        rfl

theorem valuesLoop_error_isSome {off : Int} {df v : String}
    {ls : List String} (hmem : v ∈ ls)
    (herr : ∃ e, parseLine off df v = Except.error e) :
    (valuesLoop off df ls).snd.isSome = true := by
  induction ls with
  | nil => cases hmem
  | cons w ws ih =>
    simp only [valuesLoop]
    cases h : parseLine off df w with
    | error e => rfl
    | ok o =>
      have hvw : v ∈ ws := by
        rcases List.mem_cons.mp hmem with hvw | hvw
        · obtain ⟨e, he⟩ := herr
          rw [hvw] at he
          rw [he] at h
          cases h
        · exact hvw
      cases o with
      | none => exact ih hvw
      | some hv => simpa using ih hvw

theorem obsLoop_cons_skip (off : Int) (sites : HilltopSites) (net meth : String)
    (m : HilltopMeasurement) (ms : List HilltopMeasurement)
    (h : sites.lookup m.SiteName = none ∨ HilltopUnits m.DataSource.Name = none) :
    obsLoop off sites net meth (m :: ms) = obsLoop off sites net meth ms := by
  rcases h with h | h
  · simp only [obsLoop, h]
  · cases hs : sites.lookup m.SiteName with
    | none => simp only [obsLoop, hs]
    | some s => simp only [obsLoop, hs, h]

theorem obsLoop_append_skip (off : Int) (sites : HilltopSites) (net meth : String)
    (m : HilltopMeasurement)
    (h : sites.lookup m.SiteName = none ∨ HilltopUnits m.DataSource.Name = none) :
    ∀ pre post : List HilltopMeasurement,
      obsLoop off sites net meth (pre ++ m :: post) =
        obsLoop off sites net meth (pre ++ post) := by
  intro pre
  induction pre with
  | nil =>
    intro post
    simpa using obsLoop_cons_skip off sites net meth m post h
  | cons m' pre ih =>
    intro post
    simp only [List.cons_append]
    cases hs : sites.lookup m'.SiteName with
    | none =>
      simp only [obsLoop, hs]
      exact ih post
    | some s =>
      cases ht : HilltopUnits m'.DataSource.Name with
      | none =>
        simp only [obsLoop, hs, ht]
        exact ih post
      | some t =>
        cases hv : m'.Values off with
        | mk vals eopt =>
          cases eopt with
          | some e => simp only [obsLoop, hs, ht, hv]
          | none => simp only [obsLoop, hs, ht, hv, ih post]

theorem obsLoop_error_append (off : Int) (sites : HilltopSites) (net meth : String)
    (m : HilltopMeasurement) (e : GoErr)
    (hs : (sites.lookup m.SiteName).isSome = true)
    (ht : (HilltopUnits m.DataSource.Name).isSome = true)
    (he : (m.Values off).snd = some e) :
    ∀ pre post : List HilltopMeasurement,
      (∀ m' ∈ pre, sites.lookup m'.SiteName = none ∨
        HilltopUnits m'.DataSource.Name = none ∨ (m'.Values off).snd = none) →
      obsLoop off sites net meth (pre ++ m :: post) =
        ((obsLoop off sites net meth pre).fst, some e) := by
  intro pre
  induction pre with
  | nil =>
    intro post _
    obtain ⟨s, hs'⟩ := Option.isSome_iff_exists.mp hs
    obtain ⟨t, ht'⟩ := Option.isSome_iff_exists.mp ht
    cases hv : m.Values off with
    | mk vals eopt =>
      rw [hv] at he
      cases he
      simp only [List.nil_append, obsLoop, hs', ht', hv]
  | cons m' pre ih =>
    intro post hpre
    have hm' := hpre m' (List.mem_cons_self m' pre)
    have hpre' : ∀ m'' ∈ pre, sites.lookup m''.SiteName = none ∨
        HilltopUnits m''.DataSource.Name = none ∨ (m''.Values off).snd = none :=
      fun m'' hm'' => hpre m'' (List.mem_cons_of_mem m' hm'')
    simp only [List.cons_append]
    cases hs1 : sites.lookup m'.SiteName with
    | none =>
      simp only [obsLoop, hs1]
      exact ih post hpre'
    | some s1 =>
      cases ht1 : HilltopUnits m'.DataSource.Name with
      | none =>
        simp only [obsLoop, hs1, ht1]
        exact ih post hpre'
      | some t1 =>
        cases hv1 : m'.Values off with
        | mk vals1 eopt1 =>
          cases eopt1 with
          | some e1 =>
            rcases hm' with hx | hx | hx
            · rw [hs1] at hx; cases hx
            · rw [ht1] at hx; cases hx
            · rw [hv1] at hx; cases hx
          | none =>
            simp only [obsLoop, hs1, ht1, hv1, ih post hpre']

theorem obsLoop_all_ok (off : Int) (sites : HilltopSites) (net meth : String) :
    ∀ ms : List HilltopMeasurement,
      (∀ m ∈ ms, (sites.lookup m.SiteName).isSome = true ∧
        (HilltopUnits m.DataSource.Name).isSome = true ∧
        (m.Values off).snd = none) →
      obsLoop off sites net meth ms =
        (ms.flatMap (fun m => (m.Values off).fst.map
          (obsOfValue net meth ((sites.lookup m.SiteName).getD "")
            ((HilltopUnits m.DataSource.Name).getD ""))), none) := by
  intro ms
  induction ms with
  | nil => intro _; rfl
  | cons m ms ih =>
    intro h
    obtain ⟨hs, ht, he⟩ := h m (List.mem_cons_self m ms)
    have ihh := ih (fun m' hm' => h m' (List.mem_cons_of_mem m hm'))
    obtain ⟨s, hs'⟩ := Option.isSome_iff_exists.mp hs
    obtain ⟨t, ht'⟩ := Option.isSome_iff_exists.mp ht
    cases hv : m.Values off with
    | mk vals eopt =>
      rw [hv] at he
      cases he
      simp only [obsLoop, hs', ht', hv, ihh, List.flatMap_cons, Prod.mk.injEq,
        List.append_cancel_right_eq, and_true]
      rfl

theorem obsLoop_error_estimate (off : Int) (sites : HilltopSites)
    (net meth : String) :
    ∀ (ms : List HilltopMeasurement) (o : Observation),
      o ∈ (obsLoop off sites net meth ms).fst → o.Error = GoFloat.finite 0 := by
  intro ms
  induction ms with
  | nil => intro o ho; cases ho
  | cons m ms ih =>
    intro o ho
    cases hs : sites.lookup m.SiteName with
    | none =>
      rw [obsLoop_cons_skip off sites net meth m ms (Or.inl hs)] at ho
      exact ih o ho
    | some s =>
      cases ht : HilltopUnits m.DataSource.Name with
      | none =>
        rw [obsLoop_cons_skip off sites net meth m ms (Or.inr ht)] at ho
        exact ih o ho
      | some t =>
        cases hv : m.Values off with
        | mk vals eopt =>
          cases eopt with
          | some e =>
            simp only [obsLoop, hs, ht, hv] at ho
            cases ho
          | none =>
            simp only [obsLoop, hs, ht, hv] at ho
            rcases List.mem_append.mp ho with hx | hx
            · obtain ⟨v, _, hveq⟩ := List.mem_map.mp hx
              rw [← hveq]
              rfl
            · exact ih o hx

theorem length_bind_const {α β : Type} (M : Nat) (f : α → List β) :
    ∀ l : List α, (∀ a ∈ l, (f a).length = M) →
      (l.flatMap f).length = l.length * M := by
  intro l
  induction l with
  | nil => intro _; simp
  | cons a l ih =>
    intro h
    have ha := h a (List.mem_cons_self a l)
    have ihh := ih (fun a' ha' => h a' (List.mem_cons_of_mem a ha'))
    simp only [List.flatMap_cons, List.length_append, ha, ihh, List.length_cons]
    ring

theorem dropWhile_replicate_space (n : Nat) (l : List Char) :
    (List.replicate n ' ' ++ l).dropWhile (fun c => c == ' ') =
      l.dropWhile (fun c => c == ' ') := by
  induction n with
  | zero => rfl
  | succ k ih =>
    simp only [List.replicate_succ, List.cons_append, List.dropWhile_cons,
      beq_self_eq_true, if_true]
    exact ih

theorem goTokens_replicate_space (n : Nat) (v : String) :
    goTokens (String.mk (List.replicate n ' ' ++ v.data)) = goTokens v := by
  unfold goTokens
  have hdrop : (trimLeftSpaces (String.mk (List.replicate n ' ' ++ v.data))).data
      = (trimLeftSpaces v).data := by
    simp only [trimLeftSpaces]
    exact dropWhile_replicate_space n v.data
  rw [hdrop]

/-! ## Claim theorems -/

/-- Claim C1 (code bug witness): when the byte stream cannot be
opened, `DecodeHilltopFile` returns neither an error nor a document —
the Go source returns `nil, nil` on an `os.Open` failure — so,
contrary to the claim, an unopenable input does not fail with a
`DecodeError`, and the caller's error check passes while the document
is absent. -/
theorem C1_decode_open_failure {β : Type} (xmlDecode : β → Except String Hilltop) :
    DecodeHilltopFile (none : Option β) xmlDecode = (none, none) := rfl

/-- Claim C2 counterexample: a measurement whose `dateFormat` is not
`"UTC"` does not have its timestamps interpreted in the host process's
local timezone.  With a local offset of +3600 seconds and with offset
0, extraction yields the same result, and the produced instant is the
UTC denotation `1420070400` of the text `01-Jan-15 00:00:00`, not the
local interpretation `1420070400 - 3600`. -/
theorem C2_counterexample :
    HilltopMeasurement.Values 3600 mLocalTZ = HilltopMeasurement.Values 0 mLocalTZ ∧
    (HilltopMeasurement.Values 3600 mLocalTZ).fst.map (fun v => v.Timestamp.secs) =
      [1420070400] ∧
    (1420070400 : Int) ≠ 1420070400 - 3600 :=
  ⟨rfl, by decide, by decide⟩

/-- Claim C2 (amended): for every measurement, whatever its
`dateFormat`, the Value Extractor's result is independent of the host
process's local timezone, and every produced timestamp is UTC-located:
`time.Parse` with the zoneless layout always interprets the text as
UTC, and the `dateFormat == "UTC"` branch only re-asserts the already
UTC presentation location. -/
theorem C2_values_independent_of_local_tz (m : HilltopMeasurement)
    (off1 off2 : Int) :
    HilltopMeasurement.Values off1 m = HilltopMeasurement.Values off2 m ∧
    ((HilltopMeasurement.Values off1 m).fst.all
      (fun v => v.Timestamp.loc == GoLocation.utc)) = true :=
  ⟨valuesLoop_off_irrel off1 off2 m.Data.DateFormat m.Data.Value,
   valuesLoop_all_utc off1 m.Data.DateFormat m.Data.Value⟩

/-- Claim C3 counterexample: a document whose first measurement
extracts cleanly and whose second has a malformed numeric token makes
assembly fail with that `ParseError`, but the observation slice
returned alongside the error is not empty — it carries the
observation already assembled from the first measurement. -/
theorem C3_counterexample :
    Hilltop.Observations 0 hC3 sitesEx "NT" "M" =
      ([obsA], some (GoErr.floatParse "not-a-number")) ∧
    (Hilltop.Observations 0 hC3 sitesEx "NT" "M").fst ≠ [] :=
  ⟨by decide, by decide⟩

/-- Claim C3 (amended): if the Value Extractor fails on a measurement
that passed both lookups, and every earlier measurement was either
skipped or extracted without error, then assembly of the document
fails with that `ParseError`; the slice accompanying the error holds
exactly the observations assembled from the measurements before the
failing one (the failing and later measurements contribute nothing),
and the caller discards the slice on error. -/
theorem C3_parse_error_aborts_document (off : Int) (sites : HilltopSites)
    (net meth ag : String) (pre post : List HilltopMeasurement)
    (m : HilltopMeasurement) (e : GoErr)
    (hpre : ∀ m' ∈ pre, sites.lookup m'.SiteName = none ∨
      HilltopUnits m'.DataSource.Name = none ∨
      (HilltopMeasurement.Values off m').snd = none)
    (hs : (sites.lookup m.SiteName).isSome = true)
    (ht : (HilltopUnits m.DataSource.Name).isSome = true)
    (he : (HilltopMeasurement.Values off m).snd = some e) :
    Hilltop.Observations off ⟨ag, pre ++ m :: post⟩ sites net meth =
      ((Hilltop.Observations off ⟨ag, pre⟩ sites net meth).fst, some e) :=
  obsLoop_error_append off sites net meth m e hs ht he pre post hpre

/-- Witness for C3 (amended) at a concrete document: the good
measurement's observation accompanies the error raised on the bad
measurement. -/
theorem C3_parse_error_aborts_document_witness :
    Hilltop.Observations 0 ⟨"agency", [mGoodA, mBadB]⟩ sitesEx "NT" "M" =
      ((Hilltop.Observations 0 ⟨"agency", [mGoodA]⟩ sitesEx "NT" "M").fst,
        some (GoErr.floatParse "not-a-number")) :=
  C3_parse_error_aborts_document 0 sitesEx "NT" "M" "agency" [mGoodA] [] mBadB
    (GoErr.floatParse "not-a-number") (by decide) (by decide) (by decide) (by decide)

/-- Claim C4: a measurement whose site name is absent from the site
mapping, or whose data-source name is absent from the unit mapping, is
skipped without any error: assembling the document equals assembling
the document with that measurement removed, so it contributes zero
observations, its value lines are never extracted (even fatal lines
have no effect), and the remaining measurements are processed. -/
theorem C4_unknown_identifier_skipped (off : Int) (sites : HilltopSites)
    (net meth ag : String) (pre post : List HilltopMeasurement)
    (m : HilltopMeasurement)
    (h : sites.lookup m.SiteName = none ∨ HilltopUnits m.DataSource.Name = none) :
    Hilltop.Observations off ⟨ag, pre ++ m :: post⟩ sites net meth =
      Hilltop.Observations off ⟨ag, pre ++ post⟩ sites net meth :=
  obsLoop_append_skip off sites net meth m h pre post

/-- Witness for C4 at a concrete document: the unknown-site
measurement (whose value line would be fatal if extracted) is skipped
and assembly of the rest proceeds. -/
theorem C4_unknown_identifier_skipped_witness :
    Hilltop.Observations 0 ⟨"agency", [mUnknownSite, mGoodA]⟩ sitesEx "NT" "M" =
      Hilltop.Observations 0 ⟨"agency", [mGoodA]⟩ sitesEx "NT" "M" :=
  C4_unknown_identifier_skipped 0 sitesEx "NT" "M" "agency" [] [mGoodA]
    mUnknownSite (Or.inl (by decide))

/-- Claim C5 counterexample: the line `"\t a b"` yields fewer than
three tokens after stripping leading whitespace (the claim's
tokenization), so by the claim it would be silently skipped; but the
code strips only spaces, sees three tokens, and extraction fails with
a `ParseError` on the date-time token `"\t a"`. -/
theorem C5_counterexample :
    (specTokensWhitespace "\t a b").length < 3 ∧
    (HilltopMeasurement.Values 0 mWsLine).snd =
      some (GoErr.timeParse "\t a") :=
  ⟨by decide, by decide⟩

/-- Claim C5 (amended): for every raw value line of a measurement —
with tokenization as the code performs it, stripping leading space
characters (U+0020) only and splitting on single spaces — fewer than
three tokens make the line silently skipped (no error, no reading),
while three or more tokens whose joined date-time token does not parse
or whose third token does not parse as a 64-bit float make the line
fatal and the whole extraction fail. -/
theorem C5_skip_short_fatal_malformed (m : HilltopMeasurement) (off : Int)
    (v : String) (hv : v ∈ m.Data.Value) :
    ((goTokens v).length < 3 →
      parseLine off m.Data.DateFormat v = Except.ok none) ∧
    (2 < (goTokens v).length →
      (goParseDateTime off (joinedDateToken (goTokens v)) = none ∨
        goParseFloat ((goTokens v).getD 2 "") = none) →
      (∃ e, parseLine off m.Data.DateFormat v = Except.error e) ∧
        (HilltopMeasurement.Values off m).snd.isSome = true) := by
  constructor
  · intro hlen
    simp only [parseLine]
    rw [if_neg (by omega)]
  · intro hlen hbad
    have herr : ∃ e, parseLine off m.Data.DateFormat v = Except.error e := by
      simp only [parseLine]
      rw [if_pos hlen]
      cases hdt : goParseDateTime off (joinedDateToken (goTokens v)) with
      | none =>
        exact ⟨GoErr.timeParse (joinedDateToken (goTokens v)), rfl⟩
      | some t0 =>
        rcases hbad with hb | hb
        · rw [hdt] at hb
          cases hb
        · rw [hb]
          exact ⟨GoErr.floatParse ((goTokens v).getD 2 ""), rfl⟩
    exact ⟨herr, valuesLoop_error_isSome hv herr⟩

/-- Witness for C5 (amended): a two-token line is skipped with no
error, and a measurement holding a three-token line with an
unparseable numeric token has a failing extraction. -/
theorem C5_skip_short_fatal_malformed_witness :
    parseLine 0 "UTC" "x y" = Except.ok none ∧
    (HilltopMeasurement.Values 0 mBadB).snd.isSome = true :=
  ⟨(C5_skip_short_fatal_malformed mShort 0 "x y" (by decide)).1 (by decide),
   ((C5_skip_short_fatal_malformed mBadB 0 "27-May-15 21:30:00 not-a-number"
      (by decide)).2 (by decide) (Or.inr (by decide))).2⟩

/-- Claim C6: for a document whose measurements all pass both lookups
and extract without error, assembly returns exactly the concatenation,
in document order, of each measurement's readings mapped to
observations in line order (no re-sorting, deduplication or
reordering), with no error; with N measurements of M readings each the
output length is N times M. -/
theorem C6_count_and_order (off : Int) (h : Hilltop) (sites : HilltopSites)
    (net meth : String) (N M : Nat)
    (hN : h.Measurement.length = N)
    (hok : ∀ m ∈ h.Measurement,
      (sites.lookup m.SiteName).isSome = true ∧
      (HilltopUnits m.DataSource.Name).isSome = true ∧
      (HilltopMeasurement.Values off m).snd = none)
    (hM : ∀ m ∈ h.Measurement, (HilltopMeasurement.Values off m).fst.length = M) :
    Hilltop.Observations off h sites net meth =
      (h.Measurement.flatMap (fun m => (HilltopMeasurement.Values off m).fst.map
        (obsOfValue net meth ((sites.lookup m.SiteName).getD "")
          ((HilltopUnits m.DataSource.Name).getD ""))), none) ∧
    (Hilltop.Observations off h sites net meth).fst.length = N * M := by
  have h1 := obsLoop_all_ok off sites net meth h.Measurement hok
  refine ⟨h1, ?_⟩
  have h2 : (Hilltop.Observations off h sites net meth).fst
      = h.Measurement.flatMap (fun m => (HilltopMeasurement.Values off m).fst.map
        (obsOfValue net meth ((sites.lookup m.SiteName).getD "")
          ((HilltopUnits m.DataSource.Name).getD ""))) := by
    rw [show Hilltop.Observations off h sites net meth = _ from h1]
  have hlen := length_bind_const M
    (fun m => (HilltopMeasurement.Values off m).fst.map
      (obsOfValue net meth ((sites.lookup m.SiteName).getD "")
        ((HilltopUnits m.DataSource.Name).getD "")))
    h.Measurement
    (fun m hm => by rw [List.length_map]; exact hM m hm)
  rw [h2, hlen, hN]

/-- Witness for C6 at a concrete two-by-two document. -/
theorem C6_count_and_order_witness :
    Hilltop.Observations 0 hC6 sitesEx "NT" "M" =
      (hC6.Measurement.flatMap (fun m => (HilltopMeasurement.Values 0 m).fst.map
        (obsOfValue "NT" "M" ((sitesEx.lookup m.SiteName).getD "")
          ((HilltopUnits m.DataSource.Name).getD ""))), none) ∧
    (Hilltop.Observations 0 hC6 sitesEx "NT" "M").fst.length = 2 * 2 :=
  C6_count_and_order 0 hC6 sitesEx "NT" "M" 2 2 rfl (by decide) (by decide)

/-- Claim C7: for a measurement whose `dateFormat` is `"UTC"`, the
extraction result is independent of the host process's local timezone,
and every reading produced from a line whose joined date-time token
parses to the civil date-time `c` carries exactly the UTC instant of
`c` (no local offset enters), with a UTC presentation location. -/
theorem C7_utc_timestamp_roundtrip (m : HilltopMeasurement) (off1 off2 : Int)
    (hdf : m.Data.DateFormat = "UTC") :
    HilltopMeasurement.Values off1 m = HilltopMeasurement.Values off2 m ∧
    (∀ v ∈ m.Data.Value, ∀ c : Civil,
      goParseCivil (joinedDateToken (goTokens v)).data = some c →
      ∀ (t : GoTime) (r : GoFloat),
        parseLine off1 m.Data.DateFormat v = Except.ok (some ⟨t, r⟩) →
        t = { secs := civilToUTCSecs c, loc := GoLocation.utc }) := by
  constructor
  · exact valuesLoop_off_irrel off1 off2 m.Data.DateFormat m.Data.Value
  · intro v _ c hc t r hparse
    simp only [parseLine] at hparse
    split at hparse
    · split at hparse
      · cases hparse
      · rename_i t0 hdt
        split at hparse
        · cases hparse
        · rename_i r0 hf
          have ht0 : t0 = { secs := civilToUTCSecs c, loc := GoLocation.utc } := by
            unfold goParseDateTime at hdt
            rw [hc] at hdt
            simp only [Option.map, Option.some.injEq] at hdt
            exact hdt.symm
          simp only [Except.ok.injEq, Option.some.injEq,
            HilltopValue.mk.injEq] at hparse
          obtain ⟨ht', _⟩ := hparse
          rw [← ht', hdf]
          simp [ht0, GoTime.UTC]
    · cases hparse

/-- Witness for C7 at the README's example line. -/
theorem C7_utc_timestamp_roundtrip_witness :
    HilltopMeasurement.Values 3600 mGoodA = HilltopMeasurement.Values 0 mGoodA ∧
    ({ secs := 1432762200, loc := GoLocation.utc } : GoTime) =
      { secs := civilToUTCSecs
          { year := 2015, month := 5, day := 27,
            hour := 21, minute := 30, second := 0 },
        loc := GoLocation.utc } :=
  have h := C7_utc_timestamp_roundtrip mGoodA 3600 0 rfl
  ⟨h.1,
   h.2 " 27-May-15 21:30:00 2.300000" (by decide)
     { year := 2015, month := 5, day := 27, hour := 21, minute := 30, second := 0 }
     (by decide)
     { secs := 1432762200, loc := GoLocation.utc } (GoFloat.finite (mkRat 23 10))
     (by decide)⟩

/-- Claim C8 counterexample: two value lines identical after stripping
all leading whitespace — one preceded by a space, one by a tab — are
not parsed the same: the space-led line yields a reading while the
tab-led line is a fatal `ParseError`, because the code strips only
space characters. -/
theorem C8_counterexample :
    ("\t27-May-15 21:30:00 2.300000".data.dropWhile Char.isWhitespace =
      " 27-May-15 21:30:00 2.300000".data.dropWhile Char.isWhitespace) ∧
    HilltopMeasurement.Values 0 mGoodA =
      ([{ Timestamp := { secs := 1432762200, loc := GoLocation.utc },
          Reading := GoFloat.finite (mkRat 23 10) }], none) ∧
    HilltopMeasurement.Values 0 mTab =
      ([], some (GoErr.timeParse "\t27-May-15 21:30:00")) :=
  ⟨by decide, by decide, by decide⟩

/-- Claim C8 (amended): the Value Extractor strips only leading space
characters (U+0020): prepending any number of spaces to a line never
changes its parse result; other leading whitespace is not stripped and
is carried into the first token. -/
theorem C8_leading_spaces_stripped (off : Int) (df v : String) (n : Nat) :
    parseLine off df (String.mk (List.replicate n ' ' ++ v.data)) =
      parseLine off df v := by
  unfold parseLine
  rw [goTokens_replicate_space]

/-- Claim C10 (implicit): the `dateFormat` field never changes the
extracted readings: running the Value Extractor with any two
`dateFormat` values over the same raw value lines yields identical
results — the same instants and the same readings (the `"UTC"` branch
only re-asserts the already UTC presentation location). -/
theorem C10_dateformat_never_changes_instant (m : HilltopMeasurement)
    (d1 d2 : String) (off : Int) :
    HilltopMeasurement.Values off
      { m with Data := { m.Data with DateFormat := d1 } } =
    HilltopMeasurement.Values off
      { m with Data := { m.Data with DateFormat := d2 } } :=
  valuesLoop_df_irrel off d1 d2 m.Data.Value

/-- Claim C9: every observation produced by the Observation Assembler,
for any document, site mapping, identifiers and host timezone, has an
error estimate of exactly 0.0. -/
theorem C9_error_estimate_always_zero (off : Int) (h : Hilltop)
    (sites : HilltopSites) (net meth : String) (o : Observation)
    (ho : o ∈ (Hilltop.Observations off h sites net meth).fst) :
    o.Error = GoFloat.finite 0 :=
  obsLoop_error_estimate off sites net meth h.Measurement o ho

/-- Witness for C9 at a concrete document and observation. -/
theorem C9_error_estimate_always_zero_witness :
    obsA.Error = GoFloat.finite 0 :=
  C9_error_estimate_always_zero 0 ⟨"agency", [mGoodA]⟩ sitesEx "NT" "M" obsA
    (by decide)
